import Mathlib

/-!
Verification of the image-location-report pipeline (src/main.py).

The Python program is shallowly embedded here: Python floats are modelled
as rationals (ℚ), Python dicts with string keys as insertion-ordered
association lists, Python exceptions as `Except` errors, and Python
truthiness of optional values explicitly.  Each definition mirrors the
function of the same name in `src/main.py`.
-/

set_option maxRecDepth 4000

/-- Errors a run of the Python program can raise (uncaught exceptions). -/
inductive PyError where
  | fileNotFound
  | decodeError
  | typeError
  | writeFailure
  | invalidInput
  deriving DecidableEq, Repr

/-- The GPS tag dictionary built by `get_gps_data` in `src/main.py`
(lines 44-49): four named tags of interest, plus any further raw tags
(modelled only by their key names, since later stages never read them).
Each coordinate tag value is a tuple of rationals, each reference a
string. `none` models an absent dictionary key. -/
structure GpsInfo where
  GPSLatitude : Option (List ℚ) := none
  GPSLatitudeRef : Option String := none
  GPSLongitude : Option (List ℚ) := none
  GPSLongitudeRef : Option String := none
  otherTags : List String := []
  deriving DecidableEq, Repr

/-- Python truthiness of a possibly-missing tuple value: present and
non-empty. -/
def truthyList (v : Option (List ℚ)) : Bool :=
  match v with
  | none => false
  | some l => !l.isEmpty

/-- Python truthiness of a possibly-missing string value: present and
non-empty. -/
def truthyStr (v : Option String) : Bool :=
  match v with
  | none => false
  | some s => !s.isEmpty

/-- All four required GPS fields are present and truthy (the condition on
line 69 of `src/main.py`). -/
def allPresent (g : GpsInfo) : Bool :=
  truthyList g.GPSLatitude && truthyStr g.GPSLatitudeRef &&
    truthyList g.GPSLongitude && truthyStr g.GPSLongitudeRef

/-- Python truthiness of the whole GPS dictionary (`if gps_info:` on
line 177): not `None` and non-empty as a dictionary. -/
def truthyGps (g : Option GpsInfo) : Bool :=
  match g with
  | none => false
  | some info =>
      info.GPSLatitude.isSome || info.GPSLatitudeRef.isSome ||
        info.GPSLongitude.isSome || info.GPSLongitudeRef.isSome ||
        !info.otherTags.isEmpty

/-- `convert_to_decimal` (src/main.py lines 51-56): DMS to signed decimal
degrees.  `decimal = degrees + minutes/60 + seconds/3600`, negated when
`direction in ["S", "W"]`. -/
def convert_to_decimal (degrees minutes seconds : ℚ) (direction : String) : ℚ :=
  let decimal := degrees + minutes / 60 + seconds / 3600
  if direction ∈ (["S", "W"] : List String) then -decimal else decimal

/-- Python tuple unpacking `convert_to_decimal(*latitude, latitude_ref)`:
succeeds exactly when the tuple has three components. -/
def unpack3 (l : List ℚ) : Option (ℚ × ℚ × ℚ) :=
  match l with
  | [a, b, c] => some (a, b, c)
  | _ => none

/-- `extract_gps_coordinates` (src/main.py lines 59-73).  Returns
`.ok none` (Python `(None, None)`) when any of the four fields is missing
or empty; otherwise unpacks each coordinate triple and converts.  A triple
of the wrong arity makes the Python call raise `TypeError`, modelled as
`.error .typeError`. -/
def extract_gps_coordinates (gps_info : GpsInfo) : Except PyError (Option (ℚ × ℚ)) :=
  if allPresent gps_info then
    match unpack3 (gps_info.GPSLatitude.getD []), unpack3 (gps_info.GPSLongitude.getD []) with
    | some (d1, m1, s1), some (d2, m2, s2) =>
        .ok (some
          (convert_to_decimal d1 m1 s1 (gps_info.GPSLatitudeRef.getD ""),
           convert_to_decimal d2 m2 s2 (gps_info.GPSLongitudeRef.getD "")))
    | _, _ => .error .typeError
  else
    .ok none

/-- The Google Maps URL built in `generate_qr_codes` (src/main.py line 87),
with the decimal coordinates already rendered to strings, embedded
verbatim as the `q=lat,lon` query parameter. -/
def google_maps_url (lat_s lon_s : String) : String :=
  "https://www.google.com/maps?q=" ++ lat_s ++ "," ++ lon_s

/-- The Apple Maps URL built in `generate_qr_codes` (src/main.py line 90). -/
def apple_maps_url (lat_s lon_s : String) : String :=
  "https://maps.apple.com/?q=" ++ lat_s ++ "," ++ lon_s

/-- Scan a character list for the first occurrence of `q=` and return the
remainder: the raw value of the `q` query parameter. -/
def dropThroughQEq (cs : List Char) : Option (List Char) :=
  match cs with
  | [] => none
  | c :: rest =>
      if c = 'q' then
        match rest with
        | '=' :: tail => some tail
        | _ => dropThroughQEq rest
      else dropThroughQEq rest

/-- Split a character list at its first comma. -/
def splitAtFirstComma (cs : List Char) : Option (List Char × List Char) :=
  match cs with
  | [] => none
  | c :: rest =>
      if c = ',' then some ([], rest)
      else
        match splitAtFirstComma rest with
        | some p => some (c :: p.1, p.2)
        | none => none

/-- Parse a provider URL back into its latitude and longitude strings:
take the value of the `q` parameter and split it at the first comma. -/
def parse_lat_lon (url : String) : Option (String × String) :=
  match dropThroughQEq url.data with
  | none => none
  | some tail =>
      match splitAtFirstComma tail with
      | none => none
      | some p => some (String.mk p.1, String.mk p.2)

/-- What happens when `get_gps_data` opens an image (src/main.py
lines 25-49): the image decodes with no EXIF data, decodes with EXIF but
no GPS tag, or decodes with a GPS tag dictionary. -/
inductive ExifData where
  | noExif
  | noGps
  | gps (info : GpsInfo)
  deriving DecidableEq, Repr

/-- The state of one input file as `get_gps_data` observes it: missing
(raises `FileNotFoundError`, line 27), unreadable by the decoder
(`Image.open` raises), or a decodable image. -/
inductive FileContent where
  | missing
  | undecodable
  | image (exif : ExifData)
  deriving DecidableEq, Repr

/-- One file of the input directory: its filename, what opening it
yields, and whether saving its QR bitmaps fails (an `OSError` from
`qr.save`). -/
structure InputFile where
  name : String
  content : FileContent
  qrWriteFails : Bool := false
  deriving DecidableEq, Repr

/-- `get_gps_data` (src/main.py lines 25-49): `None` for an image with no
EXIF data or no GPS tag, the GPS dictionary otherwise; missing files and
decode failures raise. -/
def get_gps_data (content : FileContent) : Except PyError (Option GpsInfo) :=
  match content with
  | .missing => .error .fileNotFound
  | .undecodable => .error .decodeError
  | .image .noExif => .ok none
  | .image .noGps => .ok none
  | .image (.gps info) => .ok (some info)

/-- The `ImageMetadata` dataclass (src/main.py lines 96-104). -/
structure ImageMetadata where
  name : String
  path : String
  gps_info : Option GpsInfo := none
  latitude : Option ℚ := none
  longitude : Option ℚ := none
  google_qr_code_path : Option String := none
  apple_qr_code_path : Option String := none
  deriving DecidableEq, Repr

/-- The `image_metadata` Python dict: insertion-ordered string-keyed
association list. -/
abbrev Dict : Type := List (String × ImageMetadata)

/-- Index of the last `.` in a character list, if any. -/
def lastDotPosAux (cs : List Char) (i : Nat) (acc : Option Nat) : Option Nat :=
  match cs with
  | [] => acc
  | c :: rest => lastDotPosAux rest (i + 1) (if c = '.' then some i else acc)

/-- `pathlib.PurePath.suffix`: the final `.`-extension of the name, empty
unless the last dot is neither the first nor the last character. -/
def suffix (name : String) : String :=
  match lastDotPosAux name.data 0 none with
  | some i =>
      if 0 < i ∧ i < name.data.length - 1 then String.mk (name.data.drop i) else ""
  | none => ""

/-- `pathlib.PurePath.stem`: the filename with its final extension
removed. -/
def stem (name : String) : String :=
  match lastDotPosAux name.data 0 none with
  | some i =>
      if 0 < i ∧ i < name.data.length - 1 then String.mk (name.data.take i) else name
  | none => name

/-- Assignment `d[k] = v` on a Python dict: replaces the value in place
when the key exists (keeping its position), appends otherwise. -/
def dictSet (d : Dict) (k : String) (v : ImageMetadata) : Dict :=
  if (List.any d fun p => p.1 == k) then
    List.map (fun p => if p.1 == k then (k, v) else p) d
  else d ++ [(k, v)]

/-- The file paths written by `generate_qr_codes` (src/main.py
lines 76-93): `{output_dir}/{filename}_{provider}_maps_qr.png` for each of
the two providers. -/
def generate_qr_codes (filename output_dir : String) : String × String :=
  (output_dir ++ "/" ++ filename ++ "_google_maps_qr.png",
   output_dir ++ "/" ++ filename ++ "_apple_maps_qr.png")

/-- The body of the per-image loop of `main` (src/main.py lines 167-186)
for one file.  The record is inserted under the filename stem first; each
later stage mutates that record, and an exception leaves the dict with the
partially-filled record and aborts. -/
def processOne (d : Dict) (f : InputFile) (output_path : String) :
    Except (PyError × Dict) Dict :=
  let key := stem f.name
  let meta0 : ImageMetadata := { name := key, path := f.name }
  match get_gps_data f.content with
  | .error e => .error (e, dictSet d key meta0)
  | .ok g =>
      let meta1 := { meta0 with gps_info := g }
      if truthyGps g then
        match extract_gps_coordinates (g.getD {}) with
        | .error e => .error (e, dictSet d key meta1)
        | .ok coords =>
            let meta2 := { meta1 with
              latitude := coords.map Prod.fst,
              longitude := coords.map Prod.snd }
            match coords with
            | some _ =>
                if f.qrWriteFails then .error (.writeFailure, dictSet d key meta2)
                else
                  let qr := generate_qr_codes key output_path
                  .ok (dictSet d key { meta2 with
                    google_qr_code_path := some qr.1,
                    apple_qr_code_path := some qr.2 })
            | none => .ok (dictSet d key meta2)
      else .ok (dictSet d key meta1)

/-- The whole per-image loop: an uncaught exception propagates, carrying
the dict state at the point of failure; files after the failing one are
never reached. -/
def processLoop (files : List InputFile) (d : Dict) (output_path : String) :
    Except (PyError × Dict) Dict :=
  match files with
  | [] => .ok d
  | f :: rest =>
      match processOne d f output_path with
      | .error ed => .error ed
      | .ok d2 => processLoop rest d2 output_path

/-- One page of the report, as drawn by `generate_pdf` (src/main.py
lines 111-138): heading with the record's name, the scaled original
image, and one labelled QR artifact per provider. -/
structure PdfSection where
  heading : String
  imagePath : String
  googleLabel : String
  googleQrPath : String
  appleLabel : String
  appleQrPath : String
  deriving DecidableEq, Repr

/-- `generate_pdf` (src/main.py lines 107-141): one page per record, in
input order.  `ImageReader(None)` raises when a record lacks a QR path,
modelled as `.error .invalidInput`; no filtering is performed. -/
def generate_pdf (images_metadata : List ImageMetadata) :
    Except PyError (List PdfSection) :=
  match images_metadata with
  | [] => .ok []
  | metadata :: rest =>
      match metadata.google_qr_code_path, metadata.apple_qr_code_path with
      | some g, some a =>
          (generate_pdf rest).map
            (fun pages =>
              { heading := "File: " ++ metadata.name,
                imagePath := metadata.path,
                googleLabel := "Google Maps", googleQrPath := g,
                appleLabel := "Apple Maps", appleQrPath := a } :: pages)
      | _, _ => .error .invalidInput

/-- The page `generate_pdf` draws for a (complete) record. -/
def mkSection (m : ImageMetadata) : PdfSection :=
  { heading := "File: " ++ m.name,
    imagePath := m.path,
    googleLabel := "Google Maps",
    googleQrPath := m.google_qr_code_path.getD "",
    appleLabel := "Apple Maps",
    appleQrPath := m.apple_qr_code_path.getD "" }

/-- `valid_extensions` (src/main.py line 164), verbatim: note the mixed
case. -/
def valid_extensions : List String := [".jpg", ".HEIC", ".png", ".jpeg"]

/-- The list comprehension on line 165: keep the files whose suffix is a
member of `valid_extensions` (exact, case-sensitive membership). -/
def filterImages (files : List InputFile) : List InputFile :=
  files.filter (fun f => valid_extensions.contains (suffix f.name))

/-- `filtered_data` (src/main.py lines 187-189): the records whose Google
QR path is set. -/
def filteredRecords (d : Dict) : List ImageMetadata :=
  (d.map Prod.snd).filter (fun m => m.google_qr_code_path.isSome)

/-- The input side of a run of `main`: whether the input directory
exists, and the files its glob returns, in glob order. -/
structure Filesystem where
  dirExists : Bool
  files : List InputFile
  deriving DecidableEq, Repr

/-- Observable outcome of a run of `main` (src/main.py lines 145-193):
early return with an error logged because the directory is missing, an
uncaught exception (carrying the dict state when it was raised), or
normal completion with the final records and the report, if one was
generated. -/
inductive RunOutcome where
  | dirMissing
  | crashed (e : PyError) (d : Dict)
  | completed (d : Dict) (report : Option (List PdfSection))
  deriving DecidableEq, Repr

/-- `main` (src/main.py lines 145-193). -/
def main_run (fs : Filesystem) : RunOutcome :=
  if !fs.dirExists then .dirMissing
  else
    let images := filterImages fs.files
    match processLoop images [] "output/test" with
    | .error (e, d) => .crashed e d
    | .ok d =>
        let filtered_data := filteredRecords d
        if filtered_data.isEmpty then .completed d none
        else
          match generate_pdf filtered_data with
          | .error e => .crashed e d
          | .ok pages => .completed d (some pages)

/-- The spec's ImageRecord invariant (spec.md §3): code artifact paths are
present only together and only if a decimal coordinate is present, and a
coordinate is present only if a tag block with both coordinate triples and
both hemisphere references was found. -/
def recordInvariant (m : ImageMetadata) : Prop :=
  m.google_qr_code_path.isSome = m.apple_qr_code_path.isSome ∧
  (m.google_qr_code_path.isSome = true →
    m.latitude.isSome = true ∧ m.longitude.isSome = true) ∧
  ((m.latitude.isSome = true ∨ m.longitude.isSome = true) →
    ∃ g, m.gps_info = some g ∧ allPresent g = true)

/-- The dict state a loop result carries, whether the loop completed or
aborted partway. -/
def dictOf (r : Except (PyError × Dict) Dict) : Dict :=
  match r with
  | .ok d => d
  | .error p => p.2

/-- ASCII lowercasing of one character (for stating case-insensitive
extension matching). -/
def lowerChar (c : Char) : Char :=
  if 'A' ≤ c ∧ c ≤ 'Z' then Char.ofNat (c.toNat + 32) else c

/-- ASCII lowercasing of a string. -/
def lowerString (s : String) : String :=
  String.mk (s.data.map lowerChar)

/-- A complete, valid GPS tag block: 40°26′46″ N, 79°58′56″ W. -/
def gpsFull : GpsInfo :=
  { GPSLatitude := some [40, 26, 46], GPSLatitudeRef := some "N",
    GPSLongitude := some [79, 58, 56], GPSLongitudeRef := some "W" }

/-- An input directory holding an undecodable image followed by a decodable
one. -/
def fsUndecodableFirst : Filesystem :=
  { dirExists := true,
    files := [{ name := "a.jpg", content := .undecodable },
              { name := "b.jpg", content := .image .noExif }] }

/-- An existing input directory whose single geolocated image fails while
saving its QR bitmaps. -/
def fsWriteFails : Filesystem :=
  { dirExists := true,
    files := [{ name := "w.jpg", content := .image (.gps gpsFull), qrWriteFails := true }] }

/-- Two distinct files whose filename stems coincide. -/
def fsStemCollision : Filesystem :=
  { dirExists := true,
    files := [{ name := "a.jpg", content := .image .noExif },
              { name := "a.png", content := .image .noExif }] }

/-- A directory with one fully geolocated image. -/
def fsOneGeolocated : Filesystem :=
  { dirExists := true,
    files := [{ name := "c.jpg", content := .image (.gps gpsFull) }] }

/-- The record the run builds for the file `c.jpg` of
`fsOneGeolocated`. -/
def metaGeolocated : ImageMetadata :=
  { name := "c", path := "c.jpg", gps_info := some gpsFull,
    latitude := some (convert_to_decimal 40 26 46 "N"),
    longitude := some (convert_to_decimal 79 58 56 "W"),
    google_qr_code_path := some "output/test/c_google_maps_qr.png",
    apple_qr_code_path := some "output/test/c_apple_maps_qr.png" }

/-- The record the run builds for `w.jpg` of `fsWriteFails` before the QR
save raises. -/
def metaWriteFailed : ImageMetadata :=
  { name := "w", path := "w.jpg", gps_info := some gpsFull,
    latitude := some (convert_to_decimal 40 26 46 "N"),
    longitude := some (convert_to_decimal 79 58 56 "W") }

/-- A directory with two images with distinct stems and no EXIF data. -/
def fsTwoDistinct : Filesystem :=
  { dirExists := true,
    files := [{ name := "a.jpg", content := .image .noExif },
              { name := "b.jpg", content := .image .noExif }] }

/-- An input file whose extension matches the allow-list only up to
case. -/
def fileUpperJpg : InputFile :=
  { name := "a.JPG", content := .image .noExif }

/-- C1: for non-negative DMS magnitudes the normalizer returns
`degrees + minutes/60 + seconds/3600`, negated exactly when the hemisphere
code is `S` or `W`; hence the result is ≥ 0 for `N`/`E` and ≤ 0 for
`S`/`W`. -/
theorem convert_to_decimal_spec (d m s : ℚ) (dir : String)
    (hd : 0 ≤ d) (hm : 0 ≤ m) (hs : 0 ≤ s) :
    (convert_to_decimal d m s dir =
      if dir = "S" ∨ dir = "W" then -(d + m / 60 + s / 3600)
      else d + m / 60 + s / 3600) ∧
    ((dir = "N" ∨ dir = "E") → 0 ≤ convert_to_decimal d m s dir) ∧
    ((dir = "S" ∨ dir = "W") → convert_to_decimal d m s dir ≤ 0) := by
  have hsum : 0 ≤ d + m / 60 + s / 3600 := by positivity
  have hmem : dir ∈ (["S", "W"] : List String) ↔ dir = "S" ∨ dir = "W" := by
    simp
  refine ⟨?_, ?_, ?_⟩
  · unfold convert_to_decimal
    by_cases h : dir = "S" ∨ dir = "W"
    · rw [if_pos (hmem.mpr h), if_pos h]
    · rw [if_neg (fun hc => h (hmem.mp hc)), if_neg h]
  · intro h
    unfold convert_to_decimal
    have hne : ¬ dir ∈ (["S", "W"] : List String) := by
      rcases h with h | h <;> simp [h]
    rw [if_neg hne]
    exact hsum
  · intro h
    unfold convert_to_decimal
    rw [if_pos (hmem.mpr h)]
    linarith

/-- Witness for `convert_to_decimal_spec` at 40°26′46″ N. -/
theorem convert_to_decimal_spec_witness :
    (convert_to_decimal 40 26 46 "N" =
      if "N" = "S" ∨ "N" = "W" then -((40 : ℚ) + 26 / 60 + 46 / 3600)
      else (40 : ℚ) + 26 / 60 + 46 / 3600) ∧
    (("N" = "N" ∨ "N" = "E") → 0 ≤ convert_to_decimal 40 26 46 "N") ∧
    (("N" = "S" ∨ "N" = "W") → convert_to_decimal 40 26 46 "N" ≤ 0) :=
  convert_to_decimal_spec 40 26 46 "N" (by norm_num) (by norm_num) (by norm_num)

theorem extract_absent_of_missing_field (g : GpsInfo)
    (h : allPresent g = false) : extract_gps_coordinates g = .ok none := by
  unfold extract_gps_coordinates
  rw [if_neg (by simp [h])]

theorem allPresent_of_extract_some (g : GpsInfo) (c : ℚ × ℚ)
    (h : extract_gps_coordinates g = .ok (some c)) : allPresent g = true := by
  by_contra hfalse
  have hf : allPresent g = false := by
    cases hap : allPresent g
    · rfl
    · exact absurd hap hfalse
  rw [extract_absent_of_missing_field g hf] at h
  simp at h

/-- C2: when any of the four required fields of the tag block is missing
or empty, `extract_gps_coordinates` returns the Absent result
`.ok none`; a coordinate pair is produced only when all four fields are
present and non-empty. -/
theorem extract_gps_requires_all_fields (g : GpsInfo) :
    (allPresent g = false → extract_gps_coordinates g = .ok none) ∧
    (∀ c, extract_gps_coordinates g = .ok (some c) → allPresent g = true) :=
  ⟨extract_absent_of_missing_field g, fun c h => allPresent_of_extract_some g c h⟩

/-- Witness for `extract_gps_requires_all_fields`: a block whose latitude
triple is missing yields Absent. -/
theorem extract_gps_requires_all_fields_witness :
    extract_gps_coordinates
      { GPSLatitude := none, GPSLatitudeRef := some "N",
        GPSLongitude := some [79, 58, 56], GPSLongitudeRef := some "W" } =
      .ok none :=
  (extract_gps_requires_all_fields
    { GPSLatitude := none, GPSLatitudeRef := some "N",
      GPSLongitude := some [79, 58, 56], GPSLongitudeRef := some "W" }).1 (by decide)

theorem dropThroughQEq_append (pre : List Char) (rest : List Char)
    (h : 'q' ∉ pre) :
    dropThroughQEq (pre ++ 'q' :: '=' :: rest) = some rest := by
  induction pre with
  | nil =>
      simp [dropThroughQEq]
  | cons c cs ih =>
      have hc : c ≠ 'q' := fun hec => h (by simp [hec])
      have hcs : 'q' ∉ cs := fun hm => h (by simp [hm])
      simp only [List.cons_append, dropThroughQEq, if_neg hc]
      exact ih hcs

theorem splitAtFirstComma_append (a b : List Char) (h : ',' ∉ a) :
    splitAtFirstComma (a ++ ',' :: b) = some (a, b) := by
  induction a with
  | nil => simp [splitAtFirstComma]
  | cons c cs ih =>
      have hc : c ≠ ',' := fun hec => h (by simp [hec])
      have hcs : ',' ∉ cs := fun hm => h (by simp [hm])
      simp only [List.cons_append, splitAtFirstComma, if_neg hc]
      rw [List.append_eq, ih hcs]

theorem parse_lat_lon_of_data (pre : List Char) (lat_s lon_s : String)
    (hq : 'q' ∉ pre) (hc : ',' ∉ lat_s.data)
    (u : String)
    (hu : u.data = pre ++ ('q' :: '=' :: (lat_s.data ++ ',' :: lon_s.data))) :
    parse_lat_lon u = some (lat_s, lon_s) := by
  unfold parse_lat_lon
  rw [hu, dropThroughQEq_append pre _ hq]
  show (match splitAtFirstComma (lat_s.data ++ ',' :: lon_s.data) with
    | none => none
    | some p => some (String.mk p.1, String.mk p.2)) = some (lat_s, lon_s)
  rw [splitAtFirstComma_append _ _ hc]

theorem google_url_data (lat_s lon_s : String) :
    (google_maps_url lat_s lon_s).data =
      "https://www.google.com/maps?".data ++
        ('q' :: '=' :: (lat_s.data ++ ',' :: lon_s.data)) := by
  have h1 : (google_maps_url lat_s lon_s).data =
      "https://www.google.com/maps?q=".data ++ lat_s.data ++ ",".data ++ lon_s.data := rfl
  rw [h1, show (",".data : List Char) = [','] from rfl,
    show ("https://www.google.com/maps?q=" : String).data =
      "https://www.google.com/maps?".data ++ ['q', '='] from by decide]
  simp [List.append_assoc]

theorem apple_url_data (lat_s lon_s : String) :
    (apple_maps_url lat_s lon_s).data =
      "https://maps.apple.com/?".data ++
        ('q' :: '=' :: (lat_s.data ++ ',' :: lon_s.data)) := by
  have h1 : (apple_maps_url lat_s lon_s).data =
      "https://maps.apple.com/?q=".data ++ lat_s.data ++ ",".data ++ lon_s.data := rfl
  rw [h1, show (",".data : List Char) = [','] from rfl,
    show ("https://maps.apple.com/?q=" : String).data =
      "https://maps.apple.com/?".data ++ ['q', '='] from by decide]
  simp [List.append_assoc]

/-- C5: each provider URL embeds the rendered decimal latitude and
longitude verbatim as a `lat,lon` query parameter, and parsing the
generated URL (taking the `q` parameter and splitting at the first comma)
recovers exactly the two rendered values, for any rendering of the
latitude that contains no comma (decimal renderings of numbers never
do). -/
theorem provider_url_roundtrip (lat_s lon_s : String) (h : ',' ∉ lat_s.data) :
    google_maps_url lat_s lon_s = "https://www.google.com/maps?q=" ++ lat_s ++ "," ++ lon_s ∧
    apple_maps_url lat_s lon_s = "https://maps.apple.com/?q=" ++ lat_s ++ "," ++ lon_s ∧
    parse_lat_lon (google_maps_url lat_s lon_s) = some (lat_s, lon_s) ∧
    parse_lat_lon (apple_maps_url lat_s lon_s) = some (lat_s, lon_s) := by
  refine ⟨rfl, rfl, ?_, ?_⟩
  · exact parse_lat_lon_of_data "https://www.google.com/maps?".data lat_s lon_s
      (by decide) h _ (google_url_data lat_s lon_s)
  · exact parse_lat_lon_of_data "https://maps.apple.com/?".data lat_s lon_s
      (by decide) h _ (apple_url_data lat_s lon_s)

/-- Witness for `provider_url_roundtrip` at the coordinate
(40.446, -79.982). -/
theorem provider_url_roundtrip_witness :
    google_maps_url "40.446" "-79.982" =
        "https://www.google.com/maps?q=" ++ "40.446" ++ "," ++ "-79.982" ∧
    apple_maps_url "40.446" "-79.982" =
        "https://maps.apple.com/?q=" ++ "40.446" ++ "," ++ "-79.982" ∧
    parse_lat_lon (google_maps_url "40.446" "-79.982") = some ("40.446", "-79.982") ∧
    parse_lat_lon (apple_maps_url "40.446" "-79.982") = some ("40.446", "-79.982") :=
  provider_url_roundtrip "40.446" "-79.982" (by decide)


theorem dictSet_mem (d : Dict) (k : String) (v : ImageMetadata)
    (p : String × ImageMetadata) (hp : p ∈ dictSet d k v) :
    p = (k, v) ∨ p ∈ d := by
  unfold dictSet at hp
  by_cases hc : (List.any d fun q => q.1 == k) = true
  · rw [if_pos hc] at hp
    rcases List.mem_map.mp hp with ⟨q, hq, hpq⟩
    by_cases hqk : (q.1 == k) = true
    · left
      rw [if_pos hqk] at hpq
      exact hpq.symm
    · right
      rw [if_neg hqk] at hpq
      exact hpq ▸ hq
  · rw [if_neg hc] at hp
    rcases List.mem_append.mp hp with h | h
    · exact Or.inr h
    · exact Or.inl (List.mem_singleton.mp h)

theorem processOne_shape (d : Dict) (f : InputFile) (op : String) :
    ∃ meta : ImageMetadata, recordInvariant meta ∧
      (processOne d f op = .ok (dictSet d (stem f.name) meta) ∨
        ∃ e, processOne d f op = .error (e, dictSet d (stem f.name) meta)) := by
  cases hg : get_gps_data f.content with
  | error e =>
      refine ⟨{ name := stem f.name, path := f.name }, ?_, Or.inr ⟨e, ?_⟩⟩
      · exact ⟨rfl, by simp, by simp⟩
      · simp only [processOne, hg]
  | ok g =>
      cases ht : truthyGps g with
      | false =>
          refine ⟨{ name := stem f.name, path := f.name, gps_info := g }, ?_, Or.inl ?_⟩
          · exact ⟨rfl, by simp, by simp⟩
          · simp only [processOne, hg, ht, Bool.false_eq_true, if_false]
      | true =>
          have hginfo : ∃ info, g = some info := by
            cases g with
            | none => simp [truthyGps] at ht
            | some info => exact ⟨info, rfl⟩
          rcases hginfo with ⟨info, rfl⟩
          cases he : extract_gps_coordinates info with
          | error e =>
              refine ⟨{ name := stem f.name, path := f.name, gps_info := some info },
                ?_, Or.inr ⟨e, ?_⟩⟩
              · exact ⟨rfl, by simp, by simp⟩
              · simp only [processOne, hg, ht, if_true, Option.getD_some, he]
          | ok coords =>
              cases coords with
              | none =>
                  refine ⟨{ name := stem f.name, path := f.name, gps_info := some info },
                    ?_, Or.inl ?_⟩
                  · exact ⟨rfl, by simp, by simp⟩
                  · simp only [processOne, hg, ht, if_true, Option.getD_some, he]
                    rfl
              | some c =>
                  have hap : allPresent info = true := allPresent_of_extract_some info c he
                  have hmeta2 : ∀ m : ImageMetadata,
                      m.name = stem f.name → m.gps_info = some info →
                      m.latitude = some c.1 → m.longitude = some c.2 →
                      (m.google_qr_code_path.isSome = m.apple_qr_code_path.isSome) →
                      (m.google_qr_code_path.isSome = true →
                        m.latitude.isSome = true ∧ m.longitude.isSome = true) →
                      recordInvariant m := by
                    intro m h1 h2 h3 h4 h5 h6
                    exact ⟨h5, h6, fun _ => ⟨info, h2, hap⟩⟩
                  cases hw : f.qrWriteFails with
                  | true =>
                      refine
                        ⟨{ name := stem f.name, path := f.name,
                           gps_info := some info,
                           latitude := some c.1, longitude := some c.2 },
                          ?_, Or.inr ⟨.writeFailure, ?_⟩⟩
                      · exact hmeta2 _ rfl rfl rfl rfl rfl (by simp)
                      · simp only [processOne, hg, ht, if_true, Option.getD_some, he,
                          Option.map_some, hw]
                        rfl
                  | false =>
                      refine
                        ⟨{ name := stem f.name, path := f.name,
                           gps_info := some info,
                           latitude := some c.1, longitude := some c.2,
                           google_qr_code_path := some (generate_qr_codes (stem f.name) op).1,
                           apple_qr_code_path := some (generate_qr_codes (stem f.name) op).2 },
                          ?_, Or.inl ?_⟩
                      · exact hmeta2 _ rfl rfl rfl rfl rfl (by simp)
                      · simp only [processOne, hg, ht, if_true, Option.getD_some, he,
                          Option.map_some, hw, Bool.false_eq_true, if_false]
                        rfl

theorem processLoop_invariant (files : List InputFile) (op : String) (d0 : Dict)
    (h0 : ∀ p ∈ d0, recordInvariant p.2) :
    ∀ p ∈ dictOf (processLoop files d0 op), recordInvariant p.2 := by
  induction files generalizing d0 with
  | nil => simpa [processLoop, dictOf] using h0
  | cons f rest ih =>
      intro p hp
      rcases processOne_shape d0 f op with ⟨meta, hinv, hcase⟩
      have hset : ∀ q ∈ dictSet d0 (stem f.name) meta, recordInvariant q.2 := by
        intro q hq
        rcases dictSet_mem _ _ _ q hq with h | h
        · rw [h]
          exact hinv
        · exact h0 q h
      rcases hcase with hok | ⟨e, herr⟩
      · rw [processLoop, hok] at hp
        exact ih _ hset p hp
      · rw [processLoop, herr] at hp
        exact hset p hp

/-- C4: every record a run builds satisfies the ImageRecord invariant as
soon as its pipeline stages have run (whether the loop completed or
aborted later): QR artifact paths are present only together with a
decimal coordinate, and a coordinate is present only if a GPS tag block
with both coordinate triples and both hemisphere references was found. -/
theorem image_record_invariant (files : List InputFile) (op : String)
    (p : String × ImageMetadata) (hp : p ∈ dictOf (processLoop files [] op)) :
    recordInvariant p.2 :=
  processLoop_invariant files op [] (by simp) p hp

/-- Witness for `image_record_invariant`: the record of the geolocated
image `c.jpg`. -/
theorem image_record_invariant_witness : recordInvariant metaGeolocated :=
  image_record_invariant fsOneGeolocated.files "output/test"
    ("c", metaGeolocated)
    (by
      rw [show dictOf (processLoop fsOneGeolocated.files [] "output/test") =
        [("c", metaGeolocated)] from rfl]
      exact List.mem_singleton.mpr rfl)

theorem generate_pdf_complete (l : List ImageMetadata)
    (h : ∀ m ∈ l, m.google_qr_code_path.isSome = true ∧
      m.apple_qr_code_path.isSome = true) :
    generate_pdf l = .ok (l.map mkSection) := by
  induction l with
  | nil => rfl
  | cons m rest ih =>
      have hm := h m (List.mem_cons_self m rest)
      rcases Option.isSome_iff_exists.mp hm.1 with ⟨g, hg⟩
      rcases Option.isSome_iff_exists.mp hm.2 with ⟨a, ha⟩
      have hrest := ih (fun x hx => h x (List.mem_cons_of_mem m hx))
      simp only [generate_pdf, hg, ha, hrest, Except.map, List.map_cons]
      simp [mkSection, hg, ha]

theorem generate_pdf_incomplete (l : List ImageMetadata) (m : ImageMetadata)
    (hm : m ∈ l)
    (h : m.google_qr_code_path = none ∨ m.apple_qr_code_path = none) :
    generate_pdf l = .error .invalidInput := by
  induction l with
  | nil => cases hm
  | cons x rest ih =>
      rcases List.mem_cons.mp hm with rfl | hmem
      · rcases h with h | h
        · simp [generate_pdf, h]
        · cases hg : m.google_qr_code_path with
          | none => simp [generate_pdf, hg]
          | some g => simp [generate_pdf, hg, h]
      · cases hg : x.google_qr_code_path with
        | none => simp [generate_pdf, hg]
        | some g =>
            cases ha : x.apple_qr_code_path with
            | none => simp [generate_pdf, hg, ha]
            | some a =>
                simp only [generate_pdf, hg, ha]
                rw [ih hmem]
                rfl

/-- C7: the report assembler performs no filtering: fed any record that
lacks either provider's artifact path it fails (the `ImageReader(None)`
exception, modelled as `InvalidInput`), and fed only complete records it
emits one page per record. -/
theorem generate_pdf_no_filtering (l : List ImageMetadata) :
    ((∃ m ∈ l, m.google_qr_code_path = none ∨ m.apple_qr_code_path = none) →
      generate_pdf l = .error .invalidInput) ∧
    ((∀ m ∈ l, m.google_qr_code_path.isSome = true ∧
        m.apple_qr_code_path.isSome = true) →
      generate_pdf l = .ok (l.map mkSection)) := by
  constructor
  · intro hex
    rcases hex with ⟨m, hm, h⟩
    exact generate_pdf_incomplete l m hm h
  · exact generate_pdf_complete l

/-- Witness for `generate_pdf_no_filtering`: a record with no QR paths
makes the assembler fail. -/
theorem generate_pdf_no_filtering_witness :
    generate_pdf [{ name := "x", path := "x.jpg" }] = .error .invalidInput :=
  (generate_pdf_no_filtering [{ name := "x", path := "x.jpg" }]).1
    ⟨{ name := "x", path := "x.jpg" }, List.mem_singleton.mpr rfl, Or.inl rfl⟩

theorem main_run_completed_some_inv (fs : Filesystem) (d : Dict)
    (secs : List PdfSection) (h : main_run fs = .completed d (some secs)) :
    processLoop (filterImages fs.files) [] "output/test" = .ok d ∧
    generate_pdf (filteredRecords d) = .ok secs := by
  simp only [main_run] at h
  cases hde : fs.dirExists with
  | false => rw [hde] at h; simp at h
  | true =>
      rw [hde] at h
      simp only [Bool.not_true, Bool.false_eq_true, if_false] at h
      cases hp : processLoop (filterImages fs.files) [] "output/test" with
      | error ed =>
          rw [hp] at h
          rcases ed with ⟨e, dd⟩
          simp at h
      | ok dd =>
          rw [hp] at h
          by_cases hemp : (filteredRecords dd).isEmpty = true
          · simp only [hemp, if_true] at h
            simp at h
          · simp only [hemp, Bool.false_eq_true, if_false] at h
            cases hg : generate_pdf (filteredRecords dd) with
            | error e => rw [hg] at h; simp at h
            | ok pages =>
                rw [hg] at h
                simp only [RunOutcome.completed.injEq, Option.some.injEq] at h
                rcases h with ⟨rfl, rfl⟩
                exact ⟨rfl, hg⟩

/-- C6: a completed run's report holds exactly one section per record
with a complete artifact set (both providers' QR paths), in record
order; each section carries the identifier heading, the original image
path, and one labelled QR artifact per provider; incomplete records
contribute no section. -/
theorem report_one_section_per_complete_record (fs : Filesystem) (d : Dict)
    (secs : List PdfSection) (h : main_run fs = .completed d (some secs)) :
    secs = ((d.map Prod.snd).filter
      (fun m => m.google_qr_code_path.isSome &&
        m.apple_qr_code_path.isSome)).map mkSection := by
  obtain ⟨hloop, hpdf⟩ := main_run_completed_some_inv fs d secs h
  have hinv : ∀ p ∈ d, recordInvariant p.2 := by
    intro p hp
    have hall := processLoop_invariant (filterImages fs.files) "output/test" []
      (by simp)
    rw [hloop] at hall
    exact hall p hp
  have hfilter : filteredRecords d = (d.map Prod.snd).filter
      (fun m => m.google_qr_code_path.isSome && m.apple_qr_code_path.isSome) := by
    unfold filteredRecords
    apply List.filter_congr
    intro m hm
    rcases List.mem_map.mp hm with ⟨p, hpd, rfl⟩
    rcases hinv p hpd with ⟨heq, _, _⟩
    cases hG : p.2.google_qr_code_path.isSome with
    | false => simp [hG]
    | true =>
        have hA : p.2.apple_qr_code_path.isSome = true := heq ▸ hG
        simp [hG, hA]
  have hcomp : ∀ m ∈ filteredRecords d,
      m.google_qr_code_path.isSome = true ∧ m.apple_qr_code_path.isSome = true := by
    intro m hm
    rw [hfilter] at hm
    simpa using List.of_mem_filter hm
  have hok := generate_pdf_complete (filteredRecords d) hcomp
  rw [hok] at hpdf
  simp only [Except.ok.injEq] at hpdf
  rw [← hpdf, hfilter]

/-- Witness for `report_one_section_per_complete_record`: the
single-image geolocated run yields exactly the one section of its one
complete record. -/
theorem report_one_section_per_complete_record_witness :
    [mkSection metaGeolocated] =
      (([("c", metaGeolocated)].map Prod.snd).filter
        (fun m => m.google_qr_code_path.isSome &&
          m.apple_qr_code_path.isSome)).map mkSection :=
  report_one_section_per_complete_record fsOneGeolocated
    [("c", metaGeolocated)] [mkSection metaGeolocated] rfl

/-- C3 counterexample: with an undecodable first image, the run crashes
with the decode error; the second image is never processed and has no
record, refuting isolate-and-continue. -/
theorem per_image_failure_aborts_run_counterexample :
    main_run fsUndecodableFirst =
      .crashed .decodeError [("a", { name := "a", path := "a.jpg" })] := rfl

/-- C3 amended: a per-image failure (missing file, decode failure,
`TypeError`, or QR write failure) is not caught: the exception aborts the
whole loop at that image, leaving the partially-built dict, and the
remaining images are never processed. -/
theorem run_aborts_on_image_failure (f : InputFile) (post : List InputFile)
    (d d2 : Dict) (e : PyError) (op : String)
    (h : processOne d f op = .error (e, d2)) :
    processLoop (f :: post) d op = .error (e, d2) := by
  rw [processLoop, h]

/-- Witness for `run_aborts_on_image_failure`. -/
theorem run_aborts_on_image_failure_witness :
    processLoop [⟨"a.jpg", .undecodable, false⟩, ⟨"b.jpg", .image .noExif, false⟩]
        [] "output/test" =
      .error (.decodeError, [("a", { name := "a", path := "a.jpg" })]) :=
  run_aborts_on_image_failure ⟨"a.jpg", .undecodable, false⟩
    [⟨"b.jpg", .image .noExif, false⟩] [] _ .decodeError "output/test" rfl

/-- C8 counterexample: the input directory exists, yet the run aborts
abnormally (QR write failure), refuting that a failure outcome occurs
only when the input directory is missing. -/
theorem exit_failure_only_if_dir_missing_counterexample :
    fsWriteFails.dirExists = true ∧
    main_run fsWriteFails = .crashed .writeFailure [("w", metaWriteFailed)] :=
  ⟨rfl, rfl⟩

/-- C8 amended: the run returns early (with an error logged, but not an
abnormal exit) exactly when the input directory is missing; when the
directory exists, an uncaught per-image exception still aborts the run;
a run with zero geolocated images completes normally with no report, and
a completed run without report indeed had zero complete records. -/
theorem main_run_exit_behavior (fs : Filesystem) :
    (main_run fs = .dirMissing ↔ fs.dirExists = false) ∧
    (∀ d, fs.dirExists = true →
      processLoop (filterImages fs.files) [] "output/test" = .ok d →
      filteredRecords d = [] → main_run fs = .completed d none) ∧
    (∀ d, main_run fs = .completed d none → filteredRecords d = []) := by
  have h1 : fs.dirExists = false → main_run fs = .dirMissing := by
    intro hde
    simp [main_run, hde]
  have h2 : fs.dirExists = true → main_run fs ≠ .dirMissing := by
    intro hde hcontra
    simp only [main_run, hde, Bool.not_true, Bool.false_eq_true, if_false] at hcontra
    cases hp : processLoop (filterImages fs.files) [] "output/test" with
    | error ed =>
        rw [hp] at hcontra
        rcases ed with ⟨e, dd⟩
        simp at hcontra
    | ok dd =>
        rw [hp] at hcontra
        by_cases hemp : (filteredRecords dd).isEmpty = true
        · simp [hemp] at hcontra
        · simp only [hemp, Bool.false_eq_true, if_false] at hcontra
          cases hg : generate_pdf (filteredRecords dd) with
          | error e => rw [hg] at hcontra; simp at hcontra
          | ok pages => rw [hg] at hcontra; simp at hcontra
  refine ⟨⟨?_, h1⟩, ?_, ?_⟩
  · intro hm
    cases hde : fs.dirExists with
    | false => rfl
    | true => exact absurd hm (h2 hde)
  · intro d hde hp hemp
    simp only [main_run, hde, Bool.not_true, Bool.false_eq_true, if_false, hp,
      hemp, List.isEmpty_nil, if_true]
  · intro d h
    simp only [main_run] at h
    cases hde : fs.dirExists with
    | false => rw [hde] at h; simp at h
    | true =>
        rw [hde] at h
        simp only [Bool.not_true, Bool.false_eq_true, if_false] at h
        cases hp : processLoop (filterImages fs.files) [] "output/test" with
        | error ed =>
            rw [hp] at h
            rcases ed with ⟨e, dd⟩
            simp at h
        | ok dd =>
            rw [hp] at h
            by_cases hemp : (filteredRecords dd).isEmpty = true
            · simp only [hemp, if_true, RunOutcome.completed.injEq] at h
              rcases h with ⟨rfl, -⟩
              exact List.isEmpty_iff.mp hemp
            · simp only [hemp, Bool.false_eq_true, if_false] at h
              cases hg : generate_pdf (filteredRecords dd) with
              | error e => rw [hg] at h; simp at h
              | ok pages => rw [hg] at h; simp at h

/-- Witness for `main_run_exit_behavior`: the run on a missing directory
returns the early-exit outcome. -/
theorem main_run_exit_behavior_witness :
    main_run { dirExists := false, files := [] } = .dirMissing :=
  (main_run_exit_behavior { dirExists := false, files := [] }).1.mpr rfl

/-- C9 counterexample: the distinct files `a.jpg` and `a.png` derive the
same identifier `a`; the second file's record overwrites the first, so a
run over both ends with a single record (whose path is the second
file's), refuting identifier uniqueness. -/
theorem identifier_uniqueness_counterexample :
    stem "a.jpg" = stem "a.png" ∧
    main_run fsStemCollision =
      .completed [("a", { name := "a", path := "a.png" })] none :=
  ⟨rfl, rfl⟩

theorem dict_any_eq_mem (d : Dict) (k : String) :
    (List.any d fun p => p.1 == k) = true ↔ k ∈ d.map Prod.fst := by
  constructor
  · intro h
    rcases List.any_eq_true.mp h with ⟨p, hp, he⟩
    exact List.mem_map.mpr ⟨p, hp, beq_iff_eq.mp he⟩
  · intro h
    rcases List.mem_map.mp h with ⟨p, hp, he⟩
    exact List.any_eq_true.mpr ⟨p, hp, beq_iff_eq.mpr he⟩

theorem dictSet_keys (d : Dict) (k : String) (v : ImageMetadata) :
    (dictSet d k v).map Prod.fst =
      if (List.any d fun p => p.1 == k) = true then d.map Prod.fst
      else d.map Prod.fst ++ [k] := by
  unfold dictSet
  by_cases hc : (List.any d fun p => p.1 == k) = true
  · rw [if_pos hc, if_pos hc, List.map_map]
    apply List.map_congr_left
    intro p hp
    by_cases hpk : (p.1 == k) = true
    · simp only [Function.comp_apply, hpk, if_true]
      exact (beq_iff_eq.mp hpk).symm
    · simp only [Function.comp_apply, hpk]
      simp
  · rw [if_neg hc, if_neg hc, List.map_append]
    rfl

theorem processOne_keys (d : Dict) (f : InputFile) (op : String) (d2 : Dict)
    (h : processOne d f op = .ok d2) :
    d2.map Prod.fst =
      if (List.any d fun p => p.1 == stem f.name) = true then d.map Prod.fst
      else d.map Prod.fst ++ [stem f.name] := by
  rcases processOne_shape d f op with ⟨meta, -, hok | ⟨e, herr⟩⟩
  · have heq : Except.ok (dictSet d (stem f.name) meta) = Except.ok d2 :=
      hok.symm.trans h
    obtain rfl : dictSet d (stem f.name) meta = d2 := by injection heq
    exact dictSet_keys d (stem f.name) meta
  · rw [herr] at h
    simp at h

theorem processLoop_keys (files : List InputFile) (op : String) (d0 d : Dict)
    (h : processLoop files d0 op = .ok d)
    (hdisj : ∀ f ∈ files, ¬ stem f.name ∈ d0.map Prod.fst)
    (hnd : (files.map fun f => stem f.name).Nodup) :
    d.map Prod.fst = d0.map Prod.fst ++ files.map (fun f => stem f.name) := by
  induction files generalizing d0 with
  | nil =>
      rw [processLoop] at h
      obtain rfl : d0 = d := by injection h
      simp
  | cons f rest ih =>
      rw [processLoop] at h
      cases hp : processOne d0 f op with
      | error ed =>
          rw [hp] at h
          simp at h
      | ok d1 =>
          rw [hp] at h
          have hnotmem : ¬ (List.any d0 fun p => p.1 == stem f.name) = true :=
            fun hc => hdisj f (List.mem_cons_self f rest)
              ((dict_any_eq_mem d0 (stem f.name)).mp hc)
          have hkeys1 : d1.map Prod.fst = d0.map Prod.fst ++ [stem f.name] := by
            rw [processOne_keys d0 f op d1 hp, if_neg hnotmem]
          rw [List.map_cons] at hnd
          have hpair := List.nodup_cons.mp hnd
          have hdisj2 : ∀ g ∈ rest, ¬ stem g.name ∈ d1.map Prod.fst := by
            intro g hg hmem
            rw [hkeys1] at hmem
            rcases List.mem_append.mp hmem with hm | hm
            · exact hdisj g (List.mem_cons_of_mem f hg) hm
            · have hgf : stem g.name = stem f.name := List.mem_singleton.mp hm
              exact hpair.1 (List.mem_map.mpr ⟨g, hg, hgf⟩)
          have hrec := ih d1 h hdisj2 hpair.2
          rw [hrec, hkeys1, List.append_assoc]
          simp

/-- C9 amended: identifiers are filename stems; after a completed loop
the record keys are exactly the stems of the input files, in input order
— one record per file — provided the stems are pairwise distinct.  Files
with equal stems collide and the later record overwrites the earlier
one. -/
theorem distinct_stems_unique_records (files : List InputFile) (op : String)
    (d : Dict) (h : processLoop files [] op = .ok d)
    (hnd : (files.map fun f => stem f.name).Nodup) :
    d.map Prod.fst = files.map (fun f => stem f.name) := by
  have hk := processLoop_keys files op [] d h (by simp) hnd
  simpa using hk

/-- Witness for `distinct_stems_unique_records` on two distinct-stem
files. -/
theorem distinct_stems_unique_records_witness :
    ([("a", { name := "a", path := "a.jpg" }),
      ("b", { name := "b", path := "b.jpg" })] : Dict).map Prod.fst =
      fsTwoDistinct.files.map (fun f => stem f.name) :=
  distinct_stems_unique_records fsTwoDistinct.files "output/test"
    [("a", { name := "a", path := "a.jpg" }),
     ("b", { name := "b", path := "b.jpg" })] rfl (by decide)

/-- C10 counterexample: the extension of `a.JPG` equals an allow-listed
extension up to ASCII case, yet the file is not selected: the matching
in `main` is case-sensitive, refuting case-insensitive matching. -/
theorem extension_case_insensitive_counterexample :
    lowerString (suffix fileUpperJpg.name) ∈ valid_extensions.map lowerString ∧
    filterImages [fileUpperJpg] = [] := by
  constructor
  · decide
  · rfl

/-- C10 amended: a file is selected iff its suffix is, case-sensitively,
one of the four allow-listed extensions; all other files are skipped by
the filter without error. -/
theorem filterImages_spec (files : List InputFile) (f : InputFile) :
    f ∈ filterImages files ↔ f ∈ files ∧ suffix f.name ∈ valid_extensions := by
  unfold filterImages
  rw [List.mem_filter]
  constructor
  · intro h
    exact ⟨h.1, (List.elem_iff).mp h.2⟩
  · intro h
    exact ⟨h.1, (List.elem_iff).mpr h.2⟩

/-- Witness for `filterImages_spec`: `a.jpg` is selected. -/
theorem filterImages_spec_witness :
    ({ name := "a.jpg", content := .image .noExif } : InputFile) ∈
      filterImages [{ name := "a.jpg", content := .image .noExif }] :=
  (filterImages_spec [{ name := "a.jpg", content := .image .noExif }]
      { name := "a.jpg", content := .image .noExif }).mpr
    ⟨List.mem_singleton.mpr rfl, by decide⟩
